import Mathlib

/-!
Verification of the Ensembler repository: a shallow embedding of the
potential-energy functions (ensembler/potentials/OneD.py), the stochastic
samplers (ensembler/samplers/stochastic.py) and the EDS system
(ensembler/system/eds_system.py), together with theorems settling the
frozen specification claims.
-/

open BigOperators

/-- scipy.constants.gas_constant, used as `const.gas_constant` throughout
ensembler/samplers/stochastic.py and ensembler/potentials/OneD.py. -/
def gasConstant : ℝ := 8.31446261815324

/-! ## Enveloped potential force combination (OneD.py lines 424-467)

envelopedPotential._calculate_dvdpos_singlePos combines per-state forces.
Its mathematical core (lines 441-450) forms, for each state i, the
prefactor `1 - V_i / (sum_j V_j)` (`prefactors = ... 1 - np.divide(dimPos,
dimPosSum) ...` with `V_Is_posDim_eneSum = np.sum(V_Is_ene.T).T`), scales
the per-state force with it (`dhdpos_state_scaled = np.multiply(prefactors,
V_Is_dhdpos)`) and sums the scaled forces over the states (the
`dhdposR_positionDim` accumulation loop). -/

/-- Embedding of the force combination actually computed by
envelopedPotential._calculate_dvdpos_singlePos (OneD.py lines 441-461):
each per-state force `dV i` is scaled by `1 - V i / sum_j V j` and the
scaled forces are summed over the states. -/
noncomputable def envCodeForceCombo {n : ℕ} (V dV : Fin n → ℝ) : ℝ :=
  ∑ i, (1 - V i / ∑ j, V j) * dV i

/-- The Boltzmann softmax weight of state i demanded by the specification:
`w_i = exp(-beta*s*(V_i - Eoff_i)) / sum_j exp(-beta*s*(V_j - Eoff_j))`.
This definition follows the words of the spec (section 4.1, enveloped
potential), to be compared with the combination the source computes. -/
noncomputable def envSpecWeight {n : ℕ} (beta s : ℝ) (Eoff V : Fin n → ℝ) (i : Fin n) : ℝ :=
  Real.exp (-beta * s * (V i - Eoff i)) / ∑ j, Real.exp (-beta * s * (V j - Eoff j))

/-- The specified softmax-weighted force combination
`dV/dx = sum_i w_i * dV_i/dx` (spec section 4.1, enveloped potential). -/
noncomputable def envSpecForceCombo {n : ℕ} (beta s : ℝ) (Eoff V dV : Fin n → ℝ) : ℝ :=
  ∑ i, envSpecWeight beta s Eoff V i * dV i

/-! ## exponentialCoupledPotentials (OneD.py lines 347-384) -/

/-- Embedding of the exponentialCoupledPotentials energy (OneD.py lines
349-352): `beta = const.gas_constant / 1000.0 * temp` and
`coupling = -1/(beta*s) * log(exp(-beta*s*Vb - eoffA) + exp(-beta*s*Va - eoffB))`,
evaluated with the constituent energies `Va`, `Vb` at position `r`. -/
noncomputable def expCoupledEnergy (Va Vb : ℝ → ℝ) (eoffA eoffB s temp : ℝ) (r : ℝ) : ℝ :=
  let beta := gasConstant / 1000.0 * temp;
  -1 / (beta * s) *
    Real.log (Real.exp (-beta * s * Vb r - eoffA) + Real.exp (-beta * s * Va r - eoffB))

/-! ## flatwellPotential (OneD.py lines 533-568)

The constructor takes `x_range` and stores `x_min = min(x_range)`,
`x_max = max(x_range)`.  Energies and forces are pure comparisons, embedded
over the rationals; `np.inf` is embedded as the top element of `WithTop`. -/

structure Flatwell where
  x_min : ℚ
  x_max : ℚ
  y_max : ℚ
  y_min : ℚ

/-- flatwellPotential.__init__ (OneD.py lines 541-561) with
`x_range = (a, b)`: stores `x_min = min(x_range)`, `x_max = max(x_range)`. -/
def flatwell_init (a b y_max y_min : ℚ) : Flatwell :=
  ⟨min a b, max a b, y_max, y_min⟩

/-- flatwellPotential._calculate_energies (OneD.py line 565):
`y_min if (pos >= x_min and pos <= x_max) else y_max`. -/
def flatwell_energy (P : Flatwell) (pos : ℚ) : ℚ :=
  if P.x_min ≤ pos ∧ pos ≤ P.x_max then P.y_min else P.y_max

/-- flatwellPotential._calculate_dVdpos (OneD.py line 568):
`np.inf if (pos == x_min or pos == x_max) else 0`. -/
def flatwell_force (P : Flatwell) (pos : ℚ) : WithTop ℚ :=
  if pos = P.x_min ∨ pos = P.x_max then ⊤ else 0

/-! ## Claim theorems (first group) -/

/-- C1: the claim states that the per-state force combination returned by
envelopedPotential._calculate_dvdpos_singlePos equals the
Boltzmann-softmax-weighted sum of the constituent forces.  The code instead
scales state i by `1 - V_i / sum_j V_j`; at the two-state input
V = (0, 1), dV = (1, 0) with beta = s = 1 and zero offsets the code
combination gives 1 while the softmax combination gives
1 / (1 + exp(-1)) < 1.  (The routine is marked in the source itself as
"Implementation is not entirly correct!".) -/
theorem envelopedForce_code_differs_from_softmax :
    envCodeForceCombo (![0, 1] : Fin 2 → ℝ) ![1, 0]
      ≠ envSpecForceCombo 1 1 ![0, 0] ![0, 1] ![1, 0] := by
  have hcode : envCodeForceCombo (![0, 1] : Fin 2 → ℝ) ![1, 0] = 1 := by
    simp [envCodeForceCombo, Fin.sum_univ_two]
  have hspec : envSpecForceCombo 1 1 (![0, 0] : Fin 2 → ℝ) ![0, 1] ![1, 0] < 1 := by
    have hpos : (0 : ℝ) < Real.exp (-1) := Real.exp_pos _
    have h0 : Real.exp (-(1 : ℝ) * 1 * (0 - 0)) = 1 := by norm_num
    have h1 : Real.exp (-(1 : ℝ) * 1 * (1 - 0)) = Real.exp (-1) := by norm_num
    simp only [envSpecForceCombo, envSpecWeight, Fin.sum_univ_two, Matrix.cons_val_zero,
      Matrix.cons_val_one, Matrix.head_cons]
    rw [h0, h1]
    rw [mul_one, mul_zero, add_zero, div_lt_one (by positivity)]
    linarith
  rw [hcode]
  intro h
  exact absurd h (ne_of_gt hspec)

/-- C7: the exponentialCoupledPotentials energy is unchanged under
simultaneously swapping Va with Vb and EoffA with EoffB, for every
position and all parameter values: the two exponential terms of the
log-sum merely change places. -/
theorem expCoupled_swap_symmetry (Va Vb : ℝ → ℝ) (eoffA eoffB s temp r : ℝ) :
    expCoupledEnergy Va Vb eoffA eoffB s temp r
      = expCoupledEnergy Vb Va eoffB eoffA s temp r := by
  simp only [expCoupledEnergy]
  rw [add_comm]

/-- C8: for a flatwellPotential built from `x_range = (a, b)`, `y_min`,
`y_max`: the energy is `y_min` exactly when the position lies between
`x_min = min a b` and `x_max = max a b` and `y_max` otherwise; the force
is plus infinity exactly at the two boundary points and 0 at every other
position. -/
theorem flatwell_energy_force_spec (a b y_max y_min p : ℚ) :
    (flatwell_energy (flatwell_init a b y_max y_min) p
        = if min a b ≤ p ∧ p ≤ max a b then y_min else y_max)
    ∧ (flatwell_force (flatwell_init a b y_max y_min) p = ⊤
        ↔ (p = min a b ∨ p = max a b))
    ∧ ((p ≠ min a b ∧ p ≠ max a b)
        → flatwell_force (flatwell_init a b y_max y_min) p = 0) := by
  refine ⟨rfl, ?_, ?_⟩
  · unfold flatwell_force flatwell_init
    split
    · simp_all
    · simp_all
  · intro hp
    unfold flatwell_force flatwell_init
    simp_all

/-- Witness for C8 at the concrete instance of the spec test battery:
range (0, 1), y_min = 0, y_max = 1000, position 1/2 is no boundary point
and its force is 0. -/
theorem flatwell_energy_force_spec_witness :
    flatwell_force (flatwell_init 0 1 1000 0) (1 / 2) = 0 :=
  (flatwell_energy_force_spec 0 1 1000 0 (1 / 2)).2.2 (by norm_num)

/-! ## Metropolis Monte Carlo sampler (stochastic.py lines 147-290)

metropolisMonteCarloIntegrator.step runs an acceptance loop
`while (current_iteration <= convergence_limit and current_iteration <= maxIterationTillAccept)`.
Each iteration draws a shift, writes the proposal into
`system._currentPosition` and the shift into `system._currentForce`
(lines 264-265), then breaks when
`maxIterationTillAccept <= current_iteration` or the proposal passes
`_critInSpaceRange` together with `metropolis_criterion`; otherwise the
iteration counter is incremented and, when it reaches `convergence_limit`,
a ValueError is raised (lines 277-279).  Randomness enters only through
the drawn shifts and the uniform draw of the criterion, so the loop is
embedded over an arbitrary shift stream and an arbitrary Bool stream of
per-iteration criterion outcomes; the two limits are extended naturals
because both default to np.inf. -/

/-- stochasticSampler._critInSpaceRange (stochastic.py lines 33-34):
`spaceRange is None or (pos >= min(spaceRange) and pos <= max(spaceRange))`. -/
def critInSpaceRange (spaceRange : Option (ℚ × ℚ)) (pos : ℚ) : Bool :=
  match spaceRange with
  | Option.none => true
  | Option.some sr => decide (min sr.1 sr.2 ≤ pos) && decide (pos ≤ max sr.1 sr.2)

/-- metropolisMonteCarloIntegrator._default_randomness (stochastic.py lines
177-180): `randomness_factor * draw <= exp(-1.0 / (gas_constant / 1000.0 * T)
* (ene_new - totPot))`, with `draw` the uniform number np.random.rand(). -/
def default_randomness (factor draw ene_new totPot T : ℝ) : Prop :=
  factor * draw ≤ Real.exp (-1.0 / (gasConstant / 1000.0 * T) * (ene_new - totPot))

/-- metropolisMonteCarloIntegrator.metropolis_criterion (stochastic.py lines
218-235): `ene_new < current_state.total_potential_energy or
self._default_randomness(ene_new, current_state)`. -/
def metropolis_criterion (ene_new totPot T factor draw : ℝ) : Prop :=
  ene_new < totPot ∨ default_randomness factor draw ene_new totPot T

/-- How one run of the acceptance loop of metropolisMonteCarloIntegrator.step
ends: break through the iteration cap, break through the acceptance test,
the ValueError of line 278, or the while condition failing. -/
inductive McOutcome where
  | accepted (it : ℕ)
  | forcedAccept (it : ℕ)
  | nonConvergence (it : ℕ)
  | loopExit
  deriving DecidableEq

/-- The scratch fields of the system that metropolisMonteCarloIntegrator.step
overwrites on every iteration: `system._currentPosition` and
`system._currentForce` (stochastic.py lines 264-265). -/
structure McScratch (α : Type) where
  pos : α
  force : α
  deriving DecidableEq

/-- The acceptance loop of metropolisMonteCarloIntegrator.step (stochastic.py
lines 260-279), parametric in the position type, the stream of drawn shifts
and the stream of criterion outcomes.  `L` is `convergence_limit`, `M` is
`maxIterationTillAccept` (both np.inf by default, hence extended naturals).
The first argument of the recursion is fuel bounding the modelled number of
iterations; `Option.none` means the fuel ran out before the loop ended. -/
def mcGo {α : Type} [Add α] (L M : ℕ∞) (oldpos : α) (shift : ℕ → α)
    (inRange : α → Bool) (crit : ℕ → Bool) :
    ℕ → ℕ → McScratch α → Option (McOutcome × McScratch α)
  | 0, _, _ => Option.none
  | fuel + 1, cur, scr =>
    if (cur : ℕ∞) ≤ L ∧ (cur : ℕ∞) ≤ M then
      if M ≤ (cur : ℕ∞) then
        some (McOutcome.forcedAccept cur, ⟨oldpos + shift cur, shift cur⟩)
      else if inRange (oldpos + shift cur) && crit cur then
        some (McOutcome.accepted cur, ⟨oldpos + shift cur, shift cur⟩)
      else if L ≤ ((cur + 1 : ℕ) : ℕ∞) then
        some (McOutcome.nonConvergence (cur + 1), ⟨oldpos + shift cur, shift cur⟩)
      else
        mcGo L M oldpos shift inRange crit fuel (cur + 1) ⟨oldpos + shift cur, shift cur⟩
    else some (McOutcome.loopExit, scr)

/-- metropolisMonteCarloIntegrator.step (stochastic.py lines 237-290): runs
the acceptance loop starting at `current_iteration = 0` with the system
scratch fields still holding their pre-step values. -/
def metropolisStep {α : Type} [Add α] (L M : ℕ∞) (oldpos : α) (shift : ℕ → α)
    (inRange : α → Bool) (crit : ℕ → Bool) (prePos preForce : α) (fuel : ℕ) :
    Option (McOutcome × McScratch α) :=
  mcGo L M oldpos shift inRange crit fuel 0 ⟨prePos, preForce⟩

/-- Backbone lemma for the non-convergence path: with a finite
convergence limit `l` that is positive and at most the iteration cap, and
an acceptance test that never passes, the loop raises at iteration count
`l`, leaving the scratch fields holding the proposal of iteration `l - 1`. -/
theorem mcGo_all_rejected {α : Type} [Add α] (l : ℕ) (M : ℕ∞) (oldpos : α)
    (shift : ℕ → α) (inRange : α → Bool) (crit : ℕ → Bool)
    (hrej : ∀ j, (inRange (oldpos + shift j) && crit j) = false)
    (hlM : (l : ℕ∞) ≤ M) :
    ∀ fuel cur scr, cur < l → l - cur ≤ fuel →
      mcGo (l : ℕ∞) M oldpos shift inRange crit fuel cur scr
        = some (McOutcome.nonConvergence l, ⟨oldpos + shift (l - 1), shift (l - 1)⟩) := by
  intro fuel
  induction fuel with
  | zero => intro cur scr hcur hfuel; omega
  | succ fuel ih =>
    intro cur scr hcur hfuel
    have hcurle : (cur : ℕ∞) ≤ (l : ℕ∞) := by exact_mod_cast hcur.le
    have hcurltM : (cur : ℕ∞) < M :=
      lt_of_lt_of_le (by exact_mod_cast hcur : (cur : ℕ∞) < (l : ℕ∞)) hlM
    rw [mcGo, if_pos ⟨hcurle, hcurltM.le⟩, if_neg (not_le.mpr hcurltM)]
    rw [hrej cur]
    simp only [Bool.false_eq_true, if_false]
    rcases Nat.lt_or_ge (cur + 1) l with h1 | h1
    · rw [if_neg (by exact_mod_cast Nat.not_le.mpr h1)]
      exact ih (cur + 1) _ h1 (by omega)
    · have h2 : l = cur + 1 := by omega
      rw [if_pos (by exact_mod_cast h1)]
      subst h2
      simp

/-- Backbone lemma for the forced-acceptance path: with a finite iteration
cap `m` below the convergence limit and an acceptance test that never
passes up to `m`, the loop breaks at iteration `m` through
`maxIterationTillAccept <= current_iteration`, with the scratch fields
holding the proposal drawn at iteration `m`. -/
theorem mcGo_forced {α : Type} [Add α] (m : ℕ) (L : ℕ∞) (oldpos : α)
    (shift : ℕ → α) (inRange : α → Bool) (crit : ℕ → Bool)
    (hmL : (m : ℕ∞) < L)
    (hrej : ∀ j, j ≤ m → (inRange (oldpos + shift j) && crit j) = false) :
    ∀ fuel cur scr, cur ≤ m → m - cur < fuel →
      mcGo L (m : ℕ∞) oldpos shift inRange crit fuel cur scr
        = some (McOutcome.forcedAccept m, ⟨oldpos + shift m, shift m⟩) := by
  intro fuel
  induction fuel with
  | zero => intro cur scr hcur hfuel; omega
  | succ fuel ih =>
    intro cur scr hcur hfuel
    have hcurle : (cur : ℕ∞) ≤ (m : ℕ∞) := by exact_mod_cast hcur
    rw [mcGo, if_pos ⟨hcurle.trans hmL.le, hcurle⟩]
    rcases Nat.eq_or_lt_of_le hcur with h1 | h1
    · subst h1
      rw [if_pos le_rfl]
    · rw [if_neg (by exact_mod_cast Nat.not_le.mpr h1)]
      rw [hrej cur hcur]
      simp only [Bool.false_eq_true, if_false]
      have hnoRaise : ¬ (L ≤ ((cur + 1 : ℕ) : ℕ∞)) := by
        apply not_le.mpr
        exact lt_of_le_of_lt (by exact_mod_cast h1 : ((cur + 1 : ℕ) : ℕ∞) ≤ (m : ℕ∞)) hmL
      rw [if_neg hnoRaise]
      exact ih (cur + 1) _ h1 (by omega)

/-- Backbone lemma for the acceptance path: if every proposal before
iteration `k` is rejected, the limits have not been hit by `k`, and the
proposal of iteration `k` passes the acceptance test, the loop breaks at
iteration `k` emitting that proposal. -/
theorem mcGo_reach_accept {α : Type} [Add α] (k : ℕ) (L M : ℕ∞) (oldpos : α)
    (shift : ℕ → α) (inRange : α → Bool) (crit : ℕ → Bool)
    (hkL : (k : ℕ∞) < L) (hkM : (k : ℕ∞) < M)
    (hprev : ∀ j, j < k → (inRange (oldpos + shift j) && crit j) = false)
    (hacc : (inRange (oldpos + shift k) && crit k) = true) :
    ∀ fuel cur scr, cur ≤ k → k - cur < fuel →
      mcGo L M oldpos shift inRange crit fuel cur scr
        = some (McOutcome.accepted k, ⟨oldpos + shift k, shift k⟩) := by
  intro fuel
  induction fuel with
  | zero => intro cur scr hcur hfuel; omega
  | succ fuel ih =>
    intro cur scr hcur hfuel
    have hcurk : (cur : ℕ∞) ≤ (k : ℕ∞) := by exact_mod_cast hcur
    rw [mcGo, if_pos ⟨hcurk.trans hkL.le, hcurk.trans hkM.le⟩]
    rw [if_neg (not_le.mpr (lt_of_le_of_lt hcurk hkM))]
    rcases Nat.eq_or_lt_of_le hcur with h1 | h1
    · subst h1
      rw [hacc]
      simp
    · rw [hprev cur h1]
      simp only [Bool.false_eq_true, if_false]
      have hnoRaise : ¬ (L ≤ ((cur + 1 : ℕ) : ℕ∞)) := by
        apply not_le.mpr
        exact lt_of_le_of_lt (by exact_mod_cast h1 : ((cur + 1 : ℕ) : ℕ∞) ≤ (k : ℕ∞)) hkL
      rw [if_neg hnoRaise]
      exact ih (cur + 1) _ h1 (by omega)

/-- Counterexample for C3: convergence_limit = 5 is finite and no proposal
ever satisfies the acceptance test, yet with maxIterationTillAccept = 3 the
loop of metropolisMonteCarloIntegrator.step breaks by forced acceptance at
iteration 3 and returns silently as if the step succeeded, instead of
raising the non-convergence error. -/
theorem metropolis_cap_preempts_convergence_raise :
    ((metropolisStep (5 : ℕ∞) (3 : ℕ∞) (0 : ℤ) (fun _ => 1) (fun _ => true)
        (fun _ => false) 0 0 10).map Prod.fst = some (McOutcome.forcedAccept 3))
    ∧ ∀ it : ℕ, McOutcome.forcedAccept 3 ≠ McOutcome.nonConvergence it := by
  constructor
  · rfl
  · intro it h
    cases h

/-- C3 (amended): for every finite convergence_limit `l` with
1 <= l <= maxIterationTillAccept, if no proposal ever satisfies the
acceptance criterion together with the optional space bound,
metropolisMonteCarloIntegrator.step terminates by raising the
non-convergence ValueError exactly when the iteration count reaches `l`:
`l` iterations of fuel suffice, so the loop never runs past the limit, and
the outcome is the error, never a silent return.  (As stated the claim is
false: when maxIterationTillAccept < convergence_limit the iteration cap
forces acceptance first and the step returns without raising, see the
counterexample.) -/
theorem metropolis_nonconvergence_raises {α : Type} [Add α] (l : ℕ) (M : ℕ∞)
    (oldpos prePos preForce : α) (shift : ℕ → α) (inRange : α → Bool)
    (crit : ℕ → Bool) (hl : 1 ≤ l) (hlM : (l : ℕ∞) ≤ M)
    (hrej : ∀ j, (inRange (oldpos + shift j) && crit j) = false)
    (fuel : ℕ) (hfuel : l ≤ fuel) :
    (metropolisStep (l : ℕ∞) M oldpos shift inRange crit prePos preForce fuel).map
        Prod.fst = some (McOutcome.nonConvergence l) := by
  rw [metropolisStep,
    mcGo_all_rejected l M oldpos shift inRange crit hrej hlM fuel 0
      ⟨prePos, preForce⟩ (by omega) (by omega)]
  rfl

/-- Witness for C3: convergence_limit 2, iteration cap infinite, an always
rejecting test; the loop raises at iteration count 2. -/
theorem metropolis_nonconvergence_raises_witness :
    (metropolisStep (2 : ℕ∞) ⊤ (0 : ℤ) (fun _ => 1) (fun _ => true)
        (fun _ => false) 0 0 2).map Prod.fst = some (McOutcome.nonConvergence 2) :=
  metropolis_nonconvergence_raises 2 ⊤ 0 0 0 (fun _ => 1) (fun _ => true)
    (fun _ => false) (by norm_num) le_top (fun _ => rfl) 2 le_rfl

/-- C5: if the acceptance loop reaches the finite iteration cap
maxIterationTillAccept = m (the convergence limit being larger) without any
proposal passing the acceptance test, the step stops by forced acceptance
at iteration m and emits the last proposed position, oldpos + shift m - the
old position plus the last drawn shift - although that proposal was never
accepted by the criterion. -/
theorem metropolis_forced_accept_emits_last_proposal {α : Type} [Add α] (m : ℕ)
    (L : ℕ∞) (oldpos prePos preForce : α) (shift : ℕ → α) (inRange : α → Bool)
    (crit : ℕ → Bool) (hmL : (m : ℕ∞) < L)
    (hrej : ∀ j, j ≤ m → (inRange (oldpos + shift j) && crit j) = false)
    (fuel : ℕ) (hfuel : m < fuel) :
    metropolisStep L (m : ℕ∞) oldpos shift inRange crit prePos preForce fuel
      = some (McOutcome.forcedAccept m, ⟨oldpos + shift m, shift m⟩) :=
  mcGo_forced m L oldpos shift inRange crit hmL hrej fuel 0 ⟨prePos, preForce⟩
    (Nat.zero_le m) (by omega)

/-- Witness for C5: iteration cap 2, convergence limit infinite, an always
rejecting test with constant shift 3 from position 1; the step force-accepts
at iteration 2 and emits position 1 + 3 = 4. -/
theorem metropolis_forced_accept_emits_last_proposal_witness :
    metropolisStep ⊤ (2 : ℕ∞) (1 : ℤ) (fun _ => 3) (fun _ => true)
      (fun _ => false) 0 0 3 = some (McOutcome.forcedAccept 2, ⟨4, 3⟩) := by
  have h := metropolis_forced_accept_emits_last_proposal 2 ⊤ (1 : ℤ) 0 0
    (fun _ => 3) (fun _ => true) (fun _ => false) (by decide)
    (fun _ _ => rfl) 3 (by norm_num)
  simpa using h

/-- C4: with the default criterion, whenever the acceptance loop of
metropolisMonteCarloIntegrator.step reaches an iteration k at which the
proposed position lies within the space bound (or no bound is set, as
critInSpaceRange models) and the candidate energy is strictly lower than
the current total potential energy, the proposal is accepted at iteration
k for every value of the random draw: acceptance is deterministic there,
through the left disjunct of metropolis_criterion. -/
theorem metropolis_lower_energy_always_accepted (sr : Option (ℚ × ℚ))
    (L M : ℕ∞) (oldpos prePos preForce : ℚ) (shift : ℕ → ℚ) (crit : ℕ → Bool)
    (ene : ℕ → ℝ) (totPot T factor : ℝ) (draw : ℕ → ℝ)
    (hcrit : ∀ j, crit j = true ↔ metropolis_criterion (ene j) totPot T factor (draw j))
    (k fuel : ℕ) (hfuel : k < fuel) (hkL : (k : ℕ∞) < L) (hkM : (k : ℕ∞) < M)
    (hprev : ∀ j, j < k → (critInSpaceRange sr (oldpos + shift j) && crit j) = false)
    (hin : critInSpaceRange sr (oldpos + shift k) = true)
    (hlow : ene k < totPot) :
    metropolisStep L M oldpos shift (critInSpaceRange sr) crit prePos preForce fuel
      = some (McOutcome.accepted k, ⟨oldpos + shift k, shift k⟩) := by
  have hck : crit k = true := (hcrit k).mpr (Or.inl hlow)
  exact mcGo_reach_accept k L M oldpos shift (critInSpaceRange sr) crit hkL hkM
    hprev (by simp [hin, hck]) fuel 0 ⟨prePos, preForce⟩ (Nat.zero_le k) (by omega)

/-- Witness for C4: no space bound, limits 1, candidate energy 0 below the
current total potential energy 1; the first proposal is accepted at once. -/
theorem metropolis_lower_energy_always_accepted_witness :
    metropolisStep (1 : ℕ∞) (1 : ℕ∞) (0 : ℚ) (fun _ => 1)
      (critInSpaceRange Option.none) (fun _ => true) 0 0 1
      = some (McOutcome.accepted 0, ⟨1, 1⟩) := by
  have h := metropolis_lower_energy_always_accepted Option.none 1 1 0 0 0
    (fun _ => 1) (fun _ => true) (fun _ => 0) 1 298 1.25 (fun _ => 0)
    (fun _ => ⟨fun _ => Or.inl (by norm_num), fun _ => rfl⟩) 0 1 (by norm_num)
    (by decide) (by decide) (fun j hj => absurd hj (Nat.not_lt_zero j))
    rfl (by norm_num)
  simpa using h

/-- C10: under the conditions of the non-convergence error (finite positive
convergence_limit l at most the iteration cap, every proposal rejected), the
loop ends in the error with the system scratch fields
system._currentPosition and system._currentForce holding the last rejected
proposal, oldpos + shift (l-1) and shift (l-1): the pre-step values prePos
and preForce are overwritten, so the step is not atomic on error.  Each
proposal is written into the scratch fields before the acceptance test
(stochastic.py lines 264-265, before line 271). -/
theorem metropolis_nonatomic_scratch_on_error {α : Type} [Add α] (l : ℕ)
    (M : ℕ∞) (oldpos prePos preForce : α) (shift : ℕ → α) (inRange : α → Bool)
    (crit : ℕ → Bool) (hl : 1 ≤ l) (hlM : (l : ℕ∞) ≤ M)
    (hrej : ∀ j, (inRange (oldpos + shift j) && crit j) = false)
    (fuel : ℕ) (hfuel : l ≤ fuel) :
    metropolisStep (l : ℕ∞) M oldpos shift inRange crit prePos preForce fuel
      = some (McOutcome.nonConvergence l,
          ⟨oldpos + shift (l - 1), shift (l - 1)⟩) :=
  mcGo_all_rejected l M oldpos shift inRange crit hrej hlM fuel 0
    ⟨prePos, preForce⟩ (by omega) (by omega)

/-- Witness for C10: convergence limit 3, cap infinite, constant shift 2
from position 0, pre-step scratch values 5 and 7; on the error the scratch
holds position 0 + 2 = 2 and force 2, not the pre-step 5 and 7. -/
theorem metropolis_nonatomic_scratch_on_error_witness :
    metropolisStep (3 : ℕ∞) ⊤ (0 : ℤ) (fun _ => 2) (fun _ => true)
      (fun _ => false) 5 7 3
      = some (McOutcome.nonConvergence 3, ⟨2, 2⟩) := by
  have h := metropolis_nonatomic_scratch_on_error 3 ⊤ (0 : ℤ) 5 7 (fun _ => 2)
    (fun _ => true) (fun _ => false) (by norm_num) le_top (fun _ => rfl) 3 le_rfl
  simpa using h

/-! ## EDS system setters (eds_system.py lines 153-206)

edsSystem owns a pot.envelopedPotential.  The s setter (lines 161-165)
assigns _currentEdsS, calls `self.potential.set_s(s)` and then
updateSystemProperties(); the Eoff setter (lines 189-193) assigns
_currentEdsEoffs, assigns `self.potential.Eoff_i` and then
updateSystemProperties().  set_s and set_Eoff (lines 167-178 and 195-206)
delegate to these setters.  The potential-side behaviour (set_s and the
Eoff_i property of ND.envelopedPotential) and updateSystemProperties of
basic_system are code of the repository not under src/ and are modelled
from the spec below. -/

/-- The state of the owned enveloped potential: the mutable constants s
and Eoff together with a counter of evaluator compilations; every
regeneration of the compiled energy/force evaluator pair bumps the
counter. -/
structure EnvPotState where
  s : ℝ
  Eoff : List ℝ
  compileCount : ℕ

/-- Modelled from the spec: ND.envelopedPotential.set_s is not under src/.
Spec section 4.1: the smoothing parameter s is runtime-mutable via a
setter that forces evaluator recompilation. -/
def envPot_set_s (P : EnvPotState) (s : ℝ) : EnvPotState :=
  { P with s := s, compileCount := P.compileCount + 1 }

/-- Modelled from the spec: the Eoff_i property setter of
ND.envelopedPotential is not under src/ (eds_system.py line 192 assigns
`self.potential.Eoff_i = ...`).  Spec section 4.1: the energy offsets
Eoff are runtime-mutable via setters that force evaluator recompilation. -/
def envPot_assign_Eoff_i (P : EnvPotState) (Eoff : List ℝ) : EnvPotState :=
  { P with Eoff := Eoff, compileCount := P.compileCount + 1 }

/-- The EDS system state the setters touch: the owned potential, the
mirror fields _currentEdsS and _currentEdsEoffs, the current position and
the aggregate potential energy. -/
structure EdsState where
  potential : EnvPotState
  currentEdsS : ℝ
  currentEdsEoffs : List ℝ
  currentPosition : ℝ
  totPotEnergy : ℝ

/-- Modelled from the spec: updateSystemProperties of basic_system is not
under src/.  Spec section 4.3: after a setter the system refreshes the
aggregate energies from the owned potential; `ene` gives the energy the
compiled evaluator pair of a potential state assigns to a position. -/
def updateSystemProperties (ene : EnvPotState → ℝ → ℝ) (sys : EdsState) : EdsState :=
  { sys with totPotEnergy := ene sys.potential sys.currentPosition }

/-- edsSystem.set_s via the s setter (eds_system.py lines 161-178): assign
_currentEdsS, push the value into the potential with set_s, then call
updateSystemProperties. -/
def eds_set_s (ene : EnvPotState → ℝ → ℝ) (sys : EdsState) (s : ℝ) : EdsState :=
  updateSystemProperties ene
    { sys with currentEdsS := s, potential := envPot_set_s sys.potential s }

/-- edsSystem.set_Eoff via the Eoff setter (eds_system.py lines 189-206):
assign _currentEdsEoffs, assign the Eoff_i property of the potential, then
call updateSystemProperties. -/
def eds_set_Eoff (ene : EnvPotState → ℝ → ℝ) (sys : EdsState) (Eoff : List ℝ) :
    EdsState :=
  updateSystemProperties ene
    { sys with currentEdsEoffs := Eoff,
               potential := envPot_assign_Eoff_i sys.potential Eoff }

/-- C2: on an EDS system, set_s pushes the new s into the owned enveloped
potential and set_Eoff pushes the new offsets; each forces the evaluator
pair of the potential to be regenerated (the compilation counter grows by
one) and then refreshes the aggregate energy, which afterwards equals the
energy the freshly compiled potential assigns to the current position. -/
theorem eds_setters_push_recompile_refresh (ene : EnvPotState → ℝ → ℝ)
    (sys : EdsState) (s : ℝ) (Eoff : List ℝ) :
    ((eds_set_s ene sys s).potential.s = s
      ∧ (eds_set_s ene sys s).currentEdsS = s
      ∧ (eds_set_s ene sys s).potential.compileCount
          = sys.potential.compileCount + 1
      ∧ (eds_set_s ene sys s).totPotEnergy
          = ene (eds_set_s ene sys s).potential (eds_set_s ene sys s).currentPosition)
    ∧ ((eds_set_Eoff ene sys Eoff).potential.Eoff = Eoff
      ∧ (eds_set_Eoff ene sys Eoff).currentEdsEoffs = Eoff
      ∧ (eds_set_Eoff ene sys Eoff).potential.compileCount
          = sys.potential.compileCount + 1
      ∧ (eds_set_Eoff ene sys Eoff).totPotEnergy
          = ene (eds_set_Eoff ene sys Eoff).potential
              (eds_set_Eoff ene sys Eoff).currentPosition) :=
  ⟨⟨rfl, rfl, rfl, rfl⟩, ⟨rfl, rfl, rfl, rfl⟩⟩

/-! ## Velocity Langevin sampler (stochastic.py lines 298-527)

langevinIntegrator.step (lines 376-450) is inherited unchanged by
langevinVelocityIntegrator; after bootstrapping _oldPosition it executes
`new_position, new_velocity, curr_random = self.update_positon(system)`
(line 417), a Python unpacking of exactly three values.
langevinVelocityIntegrator.update_positon (lines 463-526) computes the BBK
half-step velocity, full-step position, fresh random number and forces and
returns the 2-tuple `(full_step_position, full_step_velocity)` (line 526). -/

/-- A Python value inside the tuple returned by update_positon: a float,
or None (the position Langevin variant returns None as its velocity). -/
inductive PyVal where
  | num (x : ℝ)
  | pyNone

/-- langevinVelocityIntegrator.update_positon (stochastic.py lines
463-526): on the first step the random number and forces are computed
fresh, otherwise the carried values are used; then the BBK half-step
velocity, the full-step position, the new random number, the new forces
and the full-step velocity; the function returns the Python 2-tuple of
line 526 together with the carried state R_x and newForces it wrote. -/
noncomputable def langevinVelocity_update (dt gamma T mass : ℝ)
    (first_step : Bool) (carriedRx carriedForces rand1 rand2 curPos curVel : ℝ)
    (force : ℝ → ℝ) : List PyVal × ℝ × ℝ :=
  let Rx0 := if first_step then Real.sqrt (2 * T * gamma * mass / dt) * rand1
             else carriedRx;
  let F0 := if first_step then -(force curPos) else carriedForces;
  let half_step_velocity :=
    (1 - gamma * dt / 2) * curVel + dt / (2 * mass) * (F0 + Rx0);
  let full_step_position := curPos + half_step_velocity * dt;
  let Rx1 := Real.sqrt (2 * T * gamma * mass / dt) * rand2;
  let F1 := -(force full_step_position);
  let full_step_velocity :=
    (1 / (1 + gamma * dt / 2)) * (half_step_velocity + dt / (1 * mass) * (F1 + Rx1));
  ([PyVal.num full_step_position, PyVal.num full_step_velocity], Rx1, F1)

/-- Python tuple unpacking `a, b, c = t` as on stochastic.py line 417:
succeeds exactly when the tuple has three components, otherwise the call
raises a ValueError. -/
def unpack3 (vals : List PyVal) : Except String (PyVal × PyVal × PyVal) :=
  match vals with
  | [a, b, c] => Except.ok (a, b, c)
  | _ => Except.error "ValueError: not enough values to unpack"

/-- langevinIntegrator.step as inherited by langevinVelocityIntegrator
(stochastic.py lines 376-450): unpacks three values from update_positon
(line 417) and, in the non-reweighting branch, returns
`(new_position, new_velocity, self.newForces)` (line 450). -/
noncomputable def langevinVelocity_step (dt gamma T mass : ℝ)
    (first_step : Bool) (carriedRx carriedForces rand1 rand2 curPos curVel : ℝ)
    (force : ℝ → ℝ) : Except String (PyVal × PyVal × ℝ) :=
  let r := langevinVelocity_update dt gamma T mass first_step carriedRx
    carriedForces rand1 rand2 curPos curVel force;
  match unpack3 r.1 with
  | Except.error e => Except.error e
  | Except.ok (p, v, _c) => Except.ok (p, v, r.2.2)

/-- C6: the claim states that every call of langevinVelocityIntegrator.step
emits both a new position and a new velocity whose kinetic energy is finite
and non-negative.  In the code, the inherited step unpacks three values
(stochastic.py line 417) from update_positon, but
langevinVelocityIntegrator.update_positon returns the 2-tuple
(full_step_position, full_step_velocity) (line 526), so every call ends in
a ValueError and emits nothing, for all inputs. -/
theorem langevinVelocity_step_always_errors (dt gamma T mass : ℝ)
    (first_step : Bool) (carriedRx carriedForces rand1 rand2 curPos curVel : ℝ)
    (force : ℝ → ℝ) :
    langevinVelocity_step dt gamma T mass first_step carriedRx carriedForces
      rand1 rand2 curPos curVel force
      = Except.error "ValueError: not enough values to unpack" := rfl

/-! ## wavePotential unit toggles (OneD.py lines 42-88)

The super constructor compiles the evaluator pair from
`V = A cos(m (r + phase)) + y_shift` and the overridden _update_functions
(lines 68-72) stores the pair as tmp_Vfunc / tmp_dVdpfunc; the constructor
then calls set_radians(radians) with radians defaulting to False.
set_degrees(True) (lines 74-78) sets radians = False and installs lambdas
wrapping the stored tmp functions with np.deg2rad; set_radians(True)
(lines 82-86) sets radians = True and installs the stored tmp functions
unwrapped; each toggle with argument False delegates to the other. -/

/-- The mutable evaluator state of a wavePotential: the stored tmp
function pair, the installed _calculate_energies / _calculate_dVdpos pair
and the radians flag. -/
structure WavePotState where
  tmp_Vfunc : ℝ → ℝ
  tmp_dVdpfunc : ℝ → ℝ
  calc_energies : ℝ → ℝ
  calc_dVdpos : ℝ → ℝ
  radians : Bool

/-- np.deg2rad: degrees to radians. -/
noncomputable def deg2rad (x : ℝ) : ℝ := x * (Real.pi / 180)

/-- The compiled wave energy `V = A cos(m (r + phase)) + y_shift`
(OneD.py line 45). -/
noncomputable def wave_V (A m phase y : ℝ) (r : ℝ) : ℝ :=
  A * Real.cos (m * (r + phase)) + y

/-- The compiled wave gradient, the sympy derivative of wave_V with
respect to the position. -/
noncomputable def wave_dVdpos (A m phase _y : ℝ) (r : ℝ) : ℝ :=
  -(A * m * Real.sin (m * (r + phase)))

/-- The True branch of set_radians (OneD.py lines 84-86): install the
stored tmp functions unwrapped and set radians = True. -/
noncomputable def wave_to_radians (w : WavePotState) : WavePotState :=
  { w with radians := true,
           calc_energies := w.tmp_Vfunc,
           calc_dVdpos := w.tmp_dVdpfunc }

/-- The True branch of set_degrees (OneD.py lines 75-78): install lambdas
wrapping the stored tmp functions with deg2rad and set radians = False. -/
noncomputable def wave_to_degrees (w : WavePotState) : WavePotState :=
  { w with radians := false,
           calc_energies := fun positions => w.tmp_Vfunc (deg2rad positions),
           calc_dVdpos := fun positions => w.tmp_dVdpfunc (deg2rad positions) }

/-- wavePotential.set_degrees (OneD.py lines 74-80). -/
noncomputable def wave_set_degrees (w : WavePotState) (degrees : Bool) : WavePotState :=
  if degrees then wave_to_degrees w else wave_to_radians w

/-- wavePotential.set_radians (OneD.py lines 82-88). -/
noncomputable def wave_set_radians (w : WavePotState) (radians : Bool) : WavePotState :=
  if radians then wave_to_radians w else wave_to_degrees w

/-- wavePotential.__init__ (OneD.py lines 47-65): compile the evaluator
pair, store it as the tmp pair, then call set_radians(radians). -/
noncomputable def wavePotential_init (A m phase y : ℝ) (radians : Bool) : WavePotState :=
  wave_set_radians
    ⟨wave_V A m phase y, wave_dVdpos A m phase y,
     wave_V A m phase y, wave_dVdpos A m phase y, radians⟩ radians

/-- The untouched default-constructed wavePotential: amplitude 1,
multiplicity 1, no shifts and radians = False, hence in degrees mode. -/
noncomputable def wave_default : WavePotState := wavePotential_init 1 1 0 0 false

/-- Counterexample for C9: on the untouched default wave potential (which
is in degrees mode), calling set_degrees(True) followed by set_radians(True)
ends in radians mode, and at position 360 the resulting energy cos 360
differs from the untouched default energy cos(2 pi) = 1: were they equal,
pi would equal a rational 180 / n, contradicting 3.14 < pi < 3.15. -/
theorem wave_roundtrip_counterexample :
    (wave_set_radians (wave_set_degrees wave_default true) true).calc_energies 360
      ≠ wave_default.calc_energies 360 := by
  intro h
  have hL : (wave_set_radians (wave_set_degrees wave_default true) true).calc_energies 360
      = Real.cos 360 := by
    show wave_V 1 1 0 0 360 = Real.cos 360
    simp [wave_V]
  have hdeg : deg2rad 360 = 2 * Real.pi := by
    unfold deg2rad; ring
  have hR : wave_default.calc_energies 360 = 1 := by
    show wave_V 1 1 0 0 (deg2rad 360) = 1
    simp [wave_V, hdeg, Real.cos_two_pi]
  rw [hL, hR] at h
  obtain ⟨n, hn⟩ := (Real.cos_eq_one_iff 360).mp h
  have hpi1 : (3.14 : ℝ) < Real.pi := Real.pi_gt_d2
  have hpi2 : Real.pi < 3.15 := Real.pi_lt_d2
  have hpipos : (0 : ℝ) < 2 * Real.pi := by positivity
  rcases le_or_lt (n : ℝ) 57 with h57 | h57
  · have hle : (n : ℝ) * (2 * Real.pi) ≤ 57 * (2 * Real.pi) :=
      mul_le_mul_of_nonneg_right h57 hpipos.le
    nlinarith
  · have h58 : (58 : ℝ) ≤ (n : ℝ) := by
      have : (57 : ℤ) < n := by exact_mod_cast h57
      exact_mod_cast this
    have hge : 58 * (2 * Real.pi) ≤ (n : ℝ) * (2 * Real.pi) :=
      mul_le_mul_of_nonneg_right h58 hpipos.le
    nlinarith

/-- C9 (amended): on the untouched default wavePotential (degrees mode),
calling set_radians(True) followed by set_degrees(True) restores exactly
the original evaluators: for every position, energy and force equal those
of the untouched default, and the unit flag is back to its original value.
(The order stated in the claim, set_degrees(True) then set_radians(True),
instead leaves the potential in radians mode and differs from the default
at position 360, see the counterexample.) -/
theorem wave_radians_degrees_roundtrip_restores_default (p : ℝ) :
    (wave_set_degrees (wave_set_radians wave_default true) true).calc_energies p
        = wave_default.calc_energies p
    ∧ (wave_set_degrees (wave_set_radians wave_default true) true).calc_dVdpos p
        = wave_default.calc_dVdpos p
    ∧ (wave_set_degrees (wave_set_radians wave_default true) true).radians
        = wave_default.radians :=
  ⟨rfl, rfl, rfl⟩
